import Mathlib

/-!
Shallow embedding of src/gas.ts from the tx-price-provider repository.

Ethers BigNumber values are arbitrary-precision signed integers; they are
modelled as Int.  BigNumber division truncates toward zero and raises a
division-by-zero fault when the divisor is zero; it is modelled by bnDiv,
which returns none exactly when the divisor is zero.  JavaScript numbers
appearing in the pricing code (gas_used, the accumulator field gasUsed)
hold exact integers in the intended range and are modelled as Int as well.
-/

/-- Ethers BigNumber division: truncation toward zero, failing (none) on a
zero divisor, as BigNumber raises a division-by-zero fault there. -/
def bnDiv (a b : Int) : Option Int :=
  if b = 0 then none else some (a.tdiv b)

/-- Constant BASE_FEE_MAX_CHANGE_DENOMINATOR = 8 from src/gas.ts. -/
def BASE_FEE_MAX_CHANGE_DENOMINATOR : Int := 8

/-- Loop body of getMaxBaseFeeInFutureBlock: the TS loop runs
maxBaseFee = maxBaseFee.mul(1125).div(1000).add(1) for blocksInFuture
iterations.  The divisor 1000 is a literal, but the division is still a
BigNumber division, so it is rendered through bnDiv. -/
def getMaxBaseFeeLoop (maxBaseFee : Int) : Nat → Option Int
  | 0 => some maxBaseFee
  | n + 1 =>
    match bnDiv (maxBaseFee * 1125) 1000 with
    | none => none
    | some q => getMaxBaseFeeLoop (q + 1) n

/-- GasProvider.getMaxBaseFeeInFutureBlock from src/gas.ts. -/
def getMaxBaseFeeInFutureBlock (baseFee : Int) (blocksInFuture : Nat) : Option Int :=
  getMaxBaseFeeLoop baseFee blocksInFuture

/-- The per-block worst-case update named by the spec:
next = trunc(current * 1125 / 1000) + 1. -/
def maxBaseFeeStep (current : Int) : Int :=
  (current * 1125).tdiv 1000 + 1

/-- GasProvider.getBaseFeeInNextBlock from src/gas.ts.  currentGasTarget is
currentGasLimit.div(2); the two-stage delta division goes through bnDiv
because its first divisor, currentGasTarget, can be zero. -/
def getBaseFeeInNextBlock (currentBaseFeePerGas currentGasUsed currentGasLimit : Int) :
    Option Int :=
  let currentGasTarget := currentGasLimit.tdiv 2
  if currentGasUsed = currentGasTarget then
    some currentBaseFeePerGas
  else if currentGasTarget < currentGasUsed then
    match bnDiv (currentBaseFeePerGas * (currentGasUsed - currentGasTarget)) currentGasTarget with
    | none => none
    | some q =>
      match bnDiv q BASE_FEE_MAX_CHANGE_DENOMINATOR with
      | none => none
      | some baseFeePerGasDelta => some (currentBaseFeePerGas + baseFeePerGasDelta)
  else
    match bnDiv (currentBaseFeePerGas * (currentGasTarget - currentGasUsed)) currentGasTarget with
    | none => none
    | some q =>
      match bnDiv q BASE_FEE_MAX_CHANGE_DENOMINATOR with
      | none => none
      | some baseFeePerGasDelta => some (currentBaseFeePerGas - baseFeePerGasDelta)

/-- The closed-form value claimed by the spec for getBaseFeeInNextBlock,
written from the words of the spec with target = gasLimit / 2 and every
division truncating toward zero. -/
def estimateNextBlockBaseFeeSpec (f gasUsed gasLimit : Int) : Int :=
  if gasUsed = gasLimit.tdiv 2 then f
  else if gasLimit.tdiv 2 < gasUsed then
    f + ((f * (gasUsed - gasLimit.tdiv 2)).tdiv (gasLimit.tdiv 2)).tdiv 8
  else
    f - ((f * (gasLimit.tdiv 2 - gasUsed)).tdiv (gasLimit.tdiv 2)).tdiv 8

/-- The fields of BlocksApiResponseTransactionDetails that
calculateBundlePricing reads (gas_used, gas_price, coinbase_transfer).
The remaining fields of the TS interface (hashes, addresses, bundle tags,
block number) are never touched by the pricing computation. -/
structure TransactionDetails where
  gas_used : Int
  gas_price : Int
  coinbase_transfer : Int
  deriving DecidableEq

/-- The accumulator threaded through the reduce inside
calculateBundlePricing, with its initial value 0 in every field. -/
structure BundleAcc where
  gasUsed : Int
  gasFeesPaidBySearcher : Int
  priorityFeesReceivedByMiner : Int
  coinbase_transfer : Int
  deriving DecidableEq

/-- The object returned by calculateBundlePricing: the four accumulated
totals, the transaction count, and the two effective prices. -/
structure FlashbotsGasPricing where
  gasUsed : Int
  gasFeesPaidBySearcher : Int
  priorityFeesReceivedByMiner : Int
  coinbase_transfer : Int
  txCount : Nat
  effectiveGasPriceToSearcher : Int
  effectivePriorityFeeToMiner : Int
  deriving DecidableEq

/-- One step of the reduce in calculateBundlePricing.  The redundant
JavaScript key-existence checks in the source all select the same field,
so they collapse to direct field reads. -/
def bundleStep (baseFee : Int) (acc : BundleAcc) (transactionDetail : TransactionDetails) :
    BundleAcc :=
  let gasUsed := transactionDetail.gas_used
  let gasPricePaidBySearcher := transactionDetail.gas_price
  let priorityFeeReceivedByMiner := gasPricePaidBySearcher - baseFee
  let coinbase_transfer := transactionDetail.coinbase_transfer
  ⟨acc.gasUsed + gasUsed,
   acc.gasFeesPaidBySearcher + gasPricePaidBySearcher * gasUsed,
   acc.priorityFeesReceivedByMiner + priorityFeeReceivedByMiner * gasUsed,
   acc.coinbase_transfer + coinbase_transfer⟩

/-- GasProvider.calculateBundlePricing from src/gas.ts.  The two effective
prices divide by the accumulated gasUsed, guarded by gasUsed > 0; the
guarded BigNumber divisions are rendered through bnDiv. -/
def calculateBundlePricing (bundleTransactions : List TransactionDetails) (baseFee : Int) :
    Option FlashbotsGasPricing :=
  let bundleGasPricing := bundleTransactions.foldl (bundleStep baseFee) ⟨0, 0, 0, 0⟩
  match
    (if 0 < bundleGasPricing.gasUsed then
      bnDiv (bundleGasPricing.coinbase_transfer + bundleGasPricing.gasFeesPaidBySearcher)
        bundleGasPricing.gasUsed
    else some 0),
    (if 0 < bundleGasPricing.gasUsed then
      bnDiv (bundleGasPricing.coinbase_transfer + bundleGasPricing.priorityFeesReceivedByMiner)
        bundleGasPricing.gasUsed
    else some 0) with
  | some effectiveGasPriceToSearcher, some effectivePriorityFeeToMiner =>
    some ⟨bundleGasPricing.gasUsed, bundleGasPricing.gasFeesPaidBySearcher,
      bundleGasPricing.priorityFeesReceivedByMiner, bundleGasPricing.coinbase_transfer,
      bundleTransactions.length, effectiveGasPriceToSearcher, effectivePriorityFeeToMiner⟩
  | _, _ => none

/-- Reference sum: total gas used across the records. -/
def sumGasUsed (txs : List TransactionDetails) : Int :=
  (txs.map TransactionDetails.gas_used).sum

/-- Reference sum: total gas fees paid by the searcher. -/
def sumGasFees (txs : List TransactionDetails) : Int :=
  (txs.map (fun t => t.gas_price * t.gas_used)).sum

/-- Reference sum: total priority fees received by the miner, with no
clamping of records priced below the base fee. -/
def sumPriorityFees (txs : List TransactionDetails) (baseFee : Int) : Int :=
  (txs.map (fun t => (t.gas_price - baseFee) * t.gas_used)).sum

/-- Reference sum: total coinbase transfer. -/
def sumCoinbase (txs : List TransactionDetails) : Int :=
  (txs.map TransactionDetails.coinbase_transfer).sum

/-- The six JSON-RPC methods prepareRelayRequest accepts. -/
inductive RelayMethod where
  | eth_callBundle
  | eth_sendBundle
  | eth_sendPrivateTransaction
  | eth_cancelPrivateTransaction
  | flashbots_getUserStats
  | flashbots_getBundleStats
  deriving DecidableEq

/-- One entry of the RpcParams array type of src/gas.ts
(string[], string, number, or a record value). -/
inductive RpcParam where
  | strList (value : List String)
  | str (value : String)
  | num (value : Int)
  | obj
  deriving DecidableEq

/-- RpcParams from src/gas.ts. -/
abbrev RpcParams : Type := List RpcParam

/-- The envelope built by prepareRelayRequest. -/
structure RelayRequest where
  method : RelayMethod
  params : RpcParams
  id : Nat
  jsonrpc : String
  deriving DecidableEq

/-- GasProvider.prepareRelayRequest from src/gas.ts.  The inherited mutable
counter this._nextId is made explicit: the function takes the current
counter value and returns the envelope (whose id is the value before the
increment, as in the postfix increment of the source) together with the
new counter value. -/
def prepareRelayRequest (nextId : Nat) (method : RelayMethod) (params : RpcParams) :
    RelayRequest × Nat :=
  (⟨method, params, nextId, "2.0"⟩, nextId + 1)

/-- The ids assigned by n sequential prepareRelayRequest calls starting
from counter value nextId, threading the counter from call to call. -/
def prepareRelayRequestIds (nextId : Nat) : Nat → List Nat
  | 0 => []
  | n + 1 =>
    let r := prepareRelayRequest nextId RelayMethod.eth_sendBundle []
    r.1.id :: prepareRelayRequestIds r.2 n

/-- A JavaScript header object viewed as a partial map from header names to
values. -/
abbrev Headers : Type := String → Option String

/-- The header key set by GasProvider.request. -/
def SIGNATURE_HEADER_KEY : String := "X-Flashbots-Signature"

/-- The freshly computed authentication header value of
GasProvider.request: address, colon, signature. -/
def authHeaderValue (address signature : String) : String :=
  address ++ ":" ++ signature

/-- The object literal holding only the freshly computed signature
header. -/
def signatureOnlyHeaders (address signature : String) : Headers :=
  fun k =>
    if k = SIGNATURE_HEADER_KEY then some (authHeaderValue address signature) else none

/-- JavaScript object spread: entries of the second (spread-later) object
overwrite entries of the first on key collision. -/
def spreadHeaders (base over : Headers) : Headers :=
  fun k =>
    match over k with
    | some v => some v
    | none => base k

/-- The connection data GasProvider.request copies and mutates: a url and
a header object. -/
structure ConnectionInfo where
  url : String
  headers : Headers

/-- The connection data actually sent by GasProvider.request: the
signature header is written first and the pre-existing headers are spread
over it. -/
def requestConnectionInfo (connectionInfo : ConnectionInfo) (address signature : String) :
    ConnectionInfo :=
  ⟨connectionInfo.url,
   spreadHeaders (signatureOnlyHeaders address signature) connectionInfo.headers⟩

/-- A concrete connection record used to instantiate the header theorem:
it already carries a signature header and one unrelated header. -/
def sampleConnectionInfo : ConnectionInfo :=
  ⟨"url",
   fun k =>
     if k = "X-Flashbots-Signature" then some "preexisting"
     else if k = "Other" then some "kept"
     else none⟩

/-- bnDiv with a nonzero divisor is ordinary truncating division. -/
theorem bnDiv_of_ne (a : Int) {b : Int} (hb : b ≠ 0) : bnDiv a b = some (a.tdiv b) := by
  simp [bnDiv, hb]

/-- The getMaxBaseFeeInFutureBlock loop never fails and computes the
n-fold iterate of the worst-case step. -/
theorem getMaxBaseFeeLoop_eq (n : Nat) : ∀ b : Int,
    getMaxBaseFeeLoop b n = some (maxBaseFeeStep^[n] b) := by
  induction n with
  | zero => intro b; simp [getMaxBaseFeeLoop]
  | succ k ih =>
    intro b
    rw [getMaxBaseFeeLoop, bnDiv_of_ne _ (by norm_num)]
    show getMaxBaseFeeLoop ((b * 1125).tdiv 1000 + 1) k = _
    rw [ih, Function.iterate_succ_apply, maxBaseFeeStep]

/-- The worst-case step sends non-negative values to non-negative
values. -/
theorem maxBaseFeeStep_nonneg {b : Int} (hb : 0 ≤ b) : 0 ≤ maxBaseFeeStep b := by
  have h : 0 ≤ (b * 1125).tdiv 1000 := Int.tdiv_nonneg (by positivity) (by norm_num)
  unfold maxBaseFeeStep
  omega

/-- The worst-case step strictly increases non-negative values. -/
theorem lt_maxBaseFeeStep {b : Int} (hb : 0 ≤ b) : b < maxBaseFeeStep b := by
  have h1 : (b * 1125).tdiv 1000 = (b * 1125) / 1000 :=
    Int.tdiv_eq_ediv (by positivity) (by norm_num)
  have h2 : b ≤ (b * 1125) / 1000 := by
    rw [Int.le_ediv_iff_mul_le (by norm_num)]
    nlinarith
  unfold maxBaseFeeStep
  omega

/-- The worst-case step is monotone on non-negative values. -/
theorem maxBaseFeeStep_mono {b c : Int} (hb : 0 ≤ b) (hbc : b ≤ c) :
    maxBaseFeeStep b ≤ maxBaseFeeStep c := by
  have h1 : (b * 1125).tdiv 1000 = (b * 1125) / 1000 :=
    Int.tdiv_eq_ediv (by positivity) (by norm_num)
  have h2 : (c * 1125).tdiv 1000 = (c * 1125) / 1000 :=
    Int.tdiv_eq_ediv (by nlinarith) (by norm_num)
  have h3 : (b * 1125) / 1000 ≤ (c * 1125) / 1000 :=
    Int.ediv_le_ediv (by norm_num) (by nlinarith)
  unfold maxBaseFeeStep
  omega

/-- Iterating the worst-case step preserves non-negativity. -/
theorem iterate_maxBaseFeeStep_nonneg {b : Int} (hb : 0 ≤ b) (n : Nat) :
    0 ≤ maxBaseFeeStep^[n] b := by
  induction n with
  | zero => simpa using hb
  | succ k ih =>
    rw [Function.iterate_succ_apply']
    exact maxBaseFeeStep_nonneg ih

/-- Iterates of the worst-case step are monotone in the starting value. -/
theorem iterate_maxBaseFeeStep_mono_left {b c : Int} (hb : 0 ≤ b) (hbc : b ≤ c) (n : Nat) :
    maxBaseFeeStep^[n] b ≤ maxBaseFeeStep^[n] c := by
  induction n with
  | zero => simpa using hbc
  | succ k ih =>
    rw [Function.iterate_succ_apply', Function.iterate_succ_apply']
    exact maxBaseFeeStep_mono (iterate_maxBaseFeeStep_nonneg hb k) ih

/-- Iterates of the worst-case step are monotone in the iteration
count on non-negative starting values. -/
theorem iterate_maxBaseFeeStep_mono_right {b : Int} (hb : 0 ≤ b) {m n : Nat} (hmn : m ≤ n) :
    maxBaseFeeStep^[m] b ≤ maxBaseFeeStep^[n] b := by
  induction n, hmn using Nat.le_induction with
  | base => exact le_refl _
  | succ n hmn ih =>
    rw [Function.iterate_succ_apply']
    exact le_trans ih (le_of_lt (lt_maxBaseFeeStep (iterate_maxBaseFeeStep_nonneg hb n)))

/-- The reduce of calculateBundlePricing, started anywhere, adds the four
reference sums to the starting accumulator. -/
theorem foldl_bundleStep (baseFee : Int) (txs : List TransactionDetails) : ∀ acc : BundleAcc,
    txs.foldl (bundleStep baseFee) acc =
      ⟨acc.gasUsed + sumGasUsed txs, acc.gasFeesPaidBySearcher + sumGasFees txs,
       acc.priorityFeesReceivedByMiner + sumPriorityFees txs baseFee,
       acc.coinbase_transfer + sumCoinbase txs⟩ := by
  induction txs with
  | nil =>
    intro acc
    simp [sumGasUsed, sumGasFees, sumPriorityFees, sumCoinbase]
  | cons t ts ih =>
    intro acc
    rw [List.foldl_cons, ih]
    simp only [bundleStep, sumGasUsed, sumGasFees, sumPriorityFees, sumCoinbase,
      List.map_cons, List.sum_cons, BundleAcc.mk.injEq]
    refine ⟨by ring, by ring, by ring, by ring⟩

/-- calculateBundlePricing never fails and returns exactly the reference
sums, the list length, and the guarded effective prices. -/
theorem calculateBundlePricing_eq (txs : List TransactionDetails) (baseFee : Int) :
    calculateBundlePricing txs baseFee =
      some ⟨sumGasUsed txs, sumGasFees txs, sumPriorityFees txs baseFee, sumCoinbase txs,
        txs.length,
        if 0 < sumGasUsed txs then (sumCoinbase txs + sumGasFees txs).tdiv (sumGasUsed txs)
        else 0,
        if 0 < sumGasUsed txs then
          (sumCoinbase txs + sumPriorityFees txs baseFee).tdiv (sumGasUsed txs)
        else 0⟩ := by
  have hfold := foldl_bundleStep baseFee txs ⟨0, 0, 0, 0⟩
  by_cases h : 0 < sumGasUsed txs
  · simp [calculateBundlePricing, hfold, h, bnDiv, Int.ne_of_gt h]
  · simp [calculateBundlePricing, hfold, h]

/-- Wherever the gas target is positive or the gas used hits it exactly,
getBaseFeeInNextBlock succeeds with the closed-form value of the spec. -/
theorem getBaseFeeInNextBlock_eq_spec (f g L : Int) (h : 0 < L.tdiv 2 ∨ g = L.tdiv 2) :
    getBaseFeeInNextBlock f g L = some (estimateNextBlockBaseFeeSpec f g L) := by
  by_cases heq : g = L.tdiv 2
  · simp [getBaseFeeInNextBlock, estimateNextBlockBaseFeeSpec, heq]
  · have ht : 0 < L.tdiv 2 := h.resolve_right heq
    have hne : L.tdiv 2 ≠ 0 := ne_of_gt ht
    by_cases hgt : L.tdiv 2 < g
    · simp [getBaseFeeInNextBlock, estimateNextBlockBaseFeeSpec, bnDiv,
        BASE_FEE_MAX_CHANGE_DENOMINATOR, heq, hgt, hne]
    · simp [getBaseFeeInNextBlock, estimateNextBlockBaseFeeSpec, bnDiv,
        BASE_FEE_MAX_CHANGE_DENOMINATOR, heq, hgt, hne]

/-- The ids assigned by n sequential prepareRelayRequest calls starting at
counter value s are exactly s, s+1, ..., s+n-1. -/
theorem prepareRelayRequestIds_eq (n : Nat) : ∀ s : Nat,
    prepareRelayRequestIds s n = List.range' s n := by
  induction n with
  | zero => intro s; rfl
  | succ k ih =>
    intro s
    show s :: prepareRelayRequestIds (s + 1) k = List.range' s (k + 1)
    rw [ih, List.range'_succ]

/-- Claim C1 (amended): with target = gasLimit / 2 (truncating), whenever
target > 0 or gasUsed = target, getBaseFeeInNextBlock(f, g, L) equals f
when g = target, f + (f*(g-target)/target/8) when g > target, and
f - (f*(target-g)/target/8) when g < target, every division truncating
toward zero; when target = 0 and g differs from it, the function instead
fails with a division-by-zero fault. -/
theorem claimC1 (f g L : Int) (h : 0 < L.tdiv 2 ∨ g = L.tdiv 2) :
    getBaseFeeInNextBlock f g L = some (estimateNextBlockBaseFeeSpec f g L) :=
  getBaseFeeInNextBlock_eq_spec f g L h

/-- Claim C1 witness: concrete instance at f = 7, g = 700, L = 1000. -/
theorem claimC1_witness :
    (0 < (1000 : Int).tdiv 2 ∨ (700 : Int) = (1000 : Int).tdiv 2) ∧
    getBaseFeeInNextBlock 7 700 1000 = some (estimateNextBlockBaseFeeSpec 7 700 1000) :=
  ⟨Or.inl (by decide), claimC1 7 700 1000 (Or.inl (by decide))⟩

/-- Claim C1 counterexample: at f = 1, g = 1, L = 0 the gas target is 0,
and the code fails with a division-by-zero fault (returns no value)
instead of the value the claim assigns to that input. -/
theorem claimC1_counterexample :
    getBaseFeeInNextBlock 1 1 0 ≠ some (1 + ((1 * ((1 : Int) - 0)).tdiv 0).tdiv 8) := by
  decide

/-- Claim C2 (amended): for non-negative f and positive target
L / 2, getBaseFeeInNextBlock(f, g, L) returns a value greater than or
equal to f when g > target and less than or equal to f when g < target;
the comparison is not strict, because the truncating delta can be zero. -/
theorem claimC2 (f g L : Int) (hf : 0 ≤ f) (ht : 0 < L.tdiv 2) :
    (L.tdiv 2 < g → ∃ r, getBaseFeeInNextBlock f g L = some r ∧ f ≤ r) ∧
    (g < L.tdiv 2 → ∃ r, getBaseFeeInNextBlock f g L = some r ∧ r ≤ f) := by
  constructor
  · intro hgt
    refine ⟨estimateNextBlockBaseFeeSpec f g L,
      getBaseFeeInNextBlock_eq_spec f g L (Or.inl ht), ?_⟩
    have hneq : ¬ g = L.tdiv 2 := by omega
    unfold estimateNextBlockBaseFeeSpec
    rw [if_neg hneq, if_pos hgt]
    have h1 : 0 ≤ (f * (g - L.tdiv 2)).tdiv (L.tdiv 2) :=
      Int.tdiv_nonneg (mul_nonneg hf (by omega)) (by omega)
    have h2 : 0 ≤ ((f * (g - L.tdiv 2)).tdiv (L.tdiv 2)).tdiv 8 :=
      Int.tdiv_nonneg h1 (by norm_num)
    omega
  · intro hlt
    refine ⟨estimateNextBlockBaseFeeSpec f g L,
      getBaseFeeInNextBlock_eq_spec f g L (Or.inl ht), ?_⟩
    have hneq : ¬ g = L.tdiv 2 := by omega
    have hngt : ¬ L.tdiv 2 < g := by omega
    unfold estimateNextBlockBaseFeeSpec
    rw [if_neg hneq, if_neg hngt]
    have h1 : 0 ≤ (f * (L.tdiv 2 - g)).tdiv (L.tdiv 2) :=
      Int.tdiv_nonneg (mul_nonneg hf (by omega)) (by omega)
    have h2 : 0 ≤ ((f * (L.tdiv 2 - g)).tdiv (L.tdiv 2)).tdiv 8 :=
      Int.tdiv_nonneg h1 (by norm_num)
    omega

/-- Claim C2 witness: concrete instance at f = 8000, g = 1001, L = 2000. -/
theorem claimC2_witness :
    (0 : Int) ≤ 8000 ∧ 0 < (2000 : Int).tdiv 2 ∧
    (((2000 : Int).tdiv 2 < 1001 →
       ∃ r, getBaseFeeInNextBlock 8000 1001 2000 = some r ∧ 8000 ≤ r) ∧
     ((1001 : Int) < (2000 : Int).tdiv 2 →
       ∃ r, getBaseFeeInNextBlock 8000 1001 2000 = some r ∧ r ≤ 8000)) :=
  ⟨by decide, by decide, claimC2 8000 1001 2000 (by decide) (by decide)⟩

/-- Claim C2 counterexample: at f = 1, gasUsed = 1001, gasLimit = 2000 the
gas used exceeds the target 1000, yet the result is exactly 1 = f, not
strictly greater: the truncating delta 1*1/1000/8 is 0. -/
theorem claimC2_counterexample :
    getBaseFeeInNextBlock 1 1001 2000 = some 1 ∧ ¬ ((1 : Int) < 1) := by
  decide

/-- Claim C3 (amended): getMaxBaseFeeInFutureBlock and
calculateBundlePricing never fail on integer inputs, and
getBaseFeeInNextBlock never fails provided its gas target gasLimit / 2 is
positive or gasUsed equals the target; at gasLimit 0 or 1 with gasUsed
different from the zero target it fails with a division-by-zero fault. -/
theorem claimC3 (b f g L baseFee : Int) (n : Nat) (txs : List TransactionDetails)
    (h : 0 < L.tdiv 2 ∨ g = L.tdiv 2) :
    (getMaxBaseFeeInFutureBlock b n).isSome = true ∧
    (getBaseFeeInNextBlock f g L).isSome = true ∧
    (calculateBundlePricing txs baseFee).isSome = true := by
  refine ⟨?_, ?_, ?_⟩
  · rw [show getMaxBaseFeeInFutureBlock b n = getMaxBaseFeeLoop b n from rfl,
      getMaxBaseFeeLoop_eq]
    rfl
  · rw [getBaseFeeInNextBlock_eq_spec f g L h]
    rfl
  · rw [calculateBundlePricing_eq]
    rfl

/-- Claim C3 witness: concrete instance with gas target 5. -/
theorem claimC3_witness :
    (0 < (10 : Int).tdiv 2 ∨ (7 : Int) = (10 : Int).tdiv 2) ∧
    ((getMaxBaseFeeInFutureBlock 2 2).isSome = true ∧
     (getBaseFeeInNextBlock 3 7 10).isSome = true ∧
     (calculateBundlePricing [⟨100, 50, 0⟩] 10).isSome = true) :=
  ⟨Or.inl (by decide), claimC3 2 3 7 10 10 2 [⟨100, 50, 0⟩] (Or.inl (by decide))⟩

/-- Claim C3 counterexample: at baseFee 5, gasUsed 3, gasLimit 1 the gas
target is 0, and getBaseFeeInNextBlock divides by zero and fails rather
than completing. -/
theorem claimC3_counterexample :
    (getBaseFeeInNextBlock 5 3 1).isSome = false := by
  decide

/-- Claim C4: getMaxBaseFeeInFutureBlock(b, n) is the n-fold iteration of
the step current to trunc(current * 1125 / 1000) + 1 starting from b; in
particular it is b at n = 0, and 1125000001 at b = 1000000000, n = 1. -/
theorem claimC4 (b : Int) (n : Nat) :
    getMaxBaseFeeInFutureBlock b n = some (maxBaseFeeStep^[n] b) ∧
    getMaxBaseFeeInFutureBlock b 0 = some b ∧
    getMaxBaseFeeInFutureBlock 1000000000 1 = some 1125000001 :=
  ⟨getMaxBaseFeeLoop_eq n b, rfl, by decide⟩

/-- Claim C5: getMaxBaseFeeInFutureBlock is monotonically non-decreasing
in both arguments on non-negative base fees, and one additional block
strictly increases the result. -/
theorem claimC5 (b c : Int) (m n : Nat) (hb : 0 ≤ b) (hbc : b ≤ c) (hmn : m ≤ n) :
    ∃ x y z, getMaxBaseFeeInFutureBlock b m = some x ∧
      getMaxBaseFeeInFutureBlock c n = some y ∧
      getMaxBaseFeeInFutureBlock b (m + 1) = some z ∧ x ≤ y ∧ x < z := by
  refine ⟨maxBaseFeeStep^[m] b, maxBaseFeeStep^[n] c, maxBaseFeeStep^[m + 1] b,
    getMaxBaseFeeLoop_eq m b, getMaxBaseFeeLoop_eq n c, getMaxBaseFeeLoop_eq (m + 1) b,
    ?_, ?_⟩
  · exact le_trans (iterate_maxBaseFeeStep_mono_left hb hbc m)
      (iterate_maxBaseFeeStep_mono_right (le_trans hb hbc) hmn)
  · rw [Function.iterate_succ_apply']
    exact lt_maxBaseFeeStep (iterate_maxBaseFeeStep_nonneg hb m)

/-- Claim C5 witness: concrete instance at b = 3, c = 5, m = 1, n = 2. -/
theorem claimC5_witness :
    (0 : Int) ≤ 3 ∧ (3 : Int) ≤ 5 ∧ (1 : Nat) ≤ 2 ∧
    (∃ x y z, getMaxBaseFeeInFutureBlock 3 1 = some x ∧
      getMaxBaseFeeInFutureBlock 5 2 = some y ∧
      getMaxBaseFeeInFutureBlock 3 (1 + 1) = some z ∧ x ≤ y ∧ x < z) :=
  ⟨by decide, by decide, by decide, claimC5 3 5 1 2 (by decide) (by decide) (by decide)⟩

/-- Claim C6: calculateBundlePricing returns exactly the reference sums
(total gas, total gas fees, unclamped priority fees, total coinbase
transfer), the list length as txCount, and the guarded effective prices;
on the single record with gasUsed 100, gasPricePaid 50, coinbaseTransfer 0
at baseFee 10 it returns gas fees 5000, priority fees 4000, effective gas
price 50 and effective priority fee 40. -/
theorem claimC6 (txs : List TransactionDetails) (baseFee : Int) :
    calculateBundlePricing txs baseFee =
      some ⟨sumGasUsed txs, sumGasFees txs, sumPriorityFees txs baseFee, sumCoinbase txs,
        txs.length,
        if 0 < sumGasUsed txs then (sumCoinbase txs + sumGasFees txs).tdiv (sumGasUsed txs)
        else 0,
        if 0 < sumGasUsed txs then
          (sumCoinbase txs + sumPriorityFees txs baseFee).tdiv (sumGasUsed txs)
        else 0⟩ ∧
    calculateBundlePricing [⟨100, 50, 0⟩] 10 = some ⟨100, 5000, 4000, 0, 1, 50, 40⟩ :=
  ⟨calculateBundlePricing_eq txs baseFee, by decide⟩

/-- Claim C7: on the empty record list, calculateBundlePricing succeeds
with txCount 0 and every total and both effective prices 0, independently
of the base fee. -/
theorem claimC7 (baseFee : Int) :
    calculateBundlePricing [] baseFee = some ⟨0, 0, 0, 0, 0, 0, 0⟩ := by
  simpa [sumGasUsed, sumGasFees, sumPriorityFees, sumCoinbase] using
    calculateBundlePricing_eq [] baseFee

/-- Claim C8: prepareRelayRequest advances the request-id counter by
exactly one per call, assigns the pre-increment counter value as the
envelope id, and n sequential calls yield the ids s, s+1, ..., s+n-1:
strictly increasing, no gaps, no repeats. -/
theorem claimC8 (s : Nat) (method : RelayMethod) (params : RpcParams) (n : Nat) :
    (prepareRelayRequest s method params).2 = s + 1 ∧
    (prepareRelayRequest s method params).1.id = s ∧
    prepareRelayRequestIds s n = List.range' s n ∧
    (prepareRelayRequestIds s n).Pairwise (· < ·) := by
  refine ⟨rfl, rfl, prepareRelayRequestIds_eq n s, ?_⟩
  rw [prepareRelayRequestIds_eq n s]
  exact List.pairwise_lt_range' s n

/-- Claim C9: in the headers built by request, the signature entry is
written first and the pre-existing headers are spread over it, so a
pre-existing X-Flashbots-Signature value wins on collision, the fresh
address:signature value is sent when no such key exists, and every
pre-existing header survives unchanged. -/
theorem claimC9 (connectionInfo : ConnectionInfo) (address signature k v w : String) :
    (connectionInfo.headers SIGNATURE_HEADER_KEY = some v →
      (requestConnectionInfo connectionInfo address signature).headers SIGNATURE_HEADER_KEY
        = some v) ∧
    (connectionInfo.headers SIGNATURE_HEADER_KEY = none →
      (requestConnectionInfo connectionInfo address signature).headers SIGNATURE_HEADER_KEY
        = some (authHeaderValue address signature)) ∧
    (connectionInfo.headers k = some w →
      (requestConnectionInfo connectionInfo address signature).headers k = some w) := by
  refine ⟨?_, ?_, ?_⟩
  · intro hv
    simp [requestConnectionInfo, spreadHeaders, hv]
  · intro hn
    simp [requestConnectionInfo, spreadHeaders, signatureOnlyHeaders, hn]
  · intro hw
    simp [requestConnectionInfo, spreadHeaders, hw]

/-- Claim C9 witness: a connection record carrying both a pre-existing
signature header and an unrelated header. -/
theorem claimC9_witness :
    (sampleConnectionInfo.headers SIGNATURE_HEADER_KEY = some "preexisting" →
      (requestConnectionInfo sampleConnectionInfo "addr" "sig").headers SIGNATURE_HEADER_KEY
        = some "preexisting") ∧
    (sampleConnectionInfo.headers SIGNATURE_HEADER_KEY = none →
      (requestConnectionInfo sampleConnectionInfo "addr" "sig").headers SIGNATURE_HEADER_KEY
        = some (authHeaderValue "addr" "sig")) ∧
    (sampleConnectionInfo.headers "Other" = some "kept" →
      (requestConnectionInfo sampleConnectionInfo "addr" "sig").headers "Other" = some "kept") :=
  claimC9 sampleConnectionInfo "addr" "sig" "Other" "preexisting" "kept"

/-- Claim C10: the division guard of calculateBundlePricing tests the
total gas used, not the transaction count: on a non-empty list whose gas
amounts sum to 0, the call succeeds, both effective prices are 0, and
txCount is positive. -/
theorem claimC10 (txs : List TransactionDetails) (baseFee : Int) (hne : txs ≠ [])
    (hz : sumGasUsed txs = 0) :
    ∃ r, calculateBundlePricing txs baseFee = some r ∧
      r.effectiveGasPriceToSearcher = 0 ∧ r.effectivePriorityFeeToMiner = 0 ∧
      0 < r.txCount := by
  refine ⟨_, calculateBundlePricing_eq txs baseFee, ?_, ?_, ?_⟩
  · simp [hz]
  · simp [hz]
  · simpa using List.length_pos.mpr hne

/-- Claim C10 witness: one record with zero gas used but nonzero fee and
coinbase fields. -/
theorem claimC10_witness :
    ([(⟨0, 3, 7⟩ : TransactionDetails)] ≠ []) ∧ sumGasUsed [⟨0, 3, 7⟩] = 0 ∧
    (∃ r, calculateBundlePricing [⟨0, 3, 7⟩] 2 = some r ∧
      r.effectiveGasPriceToSearcher = 0 ∧ r.effectivePriorityFeeToMiner = 0 ∧
      0 < r.txCount) :=
  ⟨by decide, by decide, claimC10 [⟨0, 3, 7⟩] 2 (by decide) (by decide)⟩
